import Mathlib

/-!
Verification of the minimap view part (`src/vs/editor/browser/viewParts/minimap/minimap.ts`).

JavaScript numbers are modelled by `JSNum`: an exact rational together with the
IEEE special values `+Infinity`, `-Infinity` and `NaN`.  Finite arithmetic is
modelled exactly (no rounding); the special values follow the IEEE/JS rules, in
particular division of a nonzero finite value by zero yields an infinity and
`0 * Infinity`, `0 / 0` yield `NaN`.  The rational zero plays the role of the
IEEE `+0`; a negative zero never arises in the computations modelled here.
-/

set_option autoImplicit false

inductive JSNum where
  | nan : JSNum
  | posInf : JSNum
  | negInf : JSNum
  | finite : ℚ → JSNum
deriving DecidableEq, Repr

namespace JSNum

def neg : JSNum → JSNum
  | nan => nan
  | posInf => negInf
  | negInf => posInf
  | finite a => finite (-a)

def add : JSNum → JSNum → JSNum
  | nan, _ => nan
  | _, nan => nan
  | posInf, negInf => nan
  | negInf, posInf => nan
  | posInf, _ => posInf
  | _, posInf => posInf
  | negInf, _ => negInf
  | _, negInf => negInf
  | finite a, finite b => finite (a + b)

def sub (a b : JSNum) : JSNum := add a (neg b)

def mul : JSNum → JSNum → JSNum
  | nan, _ => nan
  | _, nan => nan
  | posInf, posInf => posInf
  | posInf, negInf => negInf
  | negInf, posInf => negInf
  | negInf, negInf => posInf
  | posInf, finite b => if 0 < b then posInf else if b < 0 then negInf else nan
  | finite a, posInf => if 0 < a then posInf else if a < 0 then negInf else nan
  | negInf, finite b => if 0 < b then negInf else if b < 0 then posInf else nan
  | finite a, negInf => if 0 < a then negInf else if a < 0 then posInf else nan
  | finite a, finite b => finite (a * b)

/-- JS division; the rational `0` denominator behaves as the IEEE `+0`. -/
def div : JSNum → JSNum → JSNum
  | nan, _ => nan
  | _, nan => nan
  | posInf, posInf => nan
  | posInf, negInf => nan
  | negInf, posInf => nan
  | negInf, negInf => nan
  | posInf, finite b => if b < 0 then negInf else posInf
  | negInf, finite b => if b < 0 then posInf else negInf
  | finite _, posInf => finite 0
  | finite _, negInf => finite 0
  | finite a, finite b =>
      if b = 0 then (if 0 < a then posInf else if a < 0 then negInf else nan)
      else finite (a / b)

/-- `Math.min` (NaN propagates). -/
def jmin : JSNum → JSNum → JSNum
  | nan, _ => nan
  | _, nan => nan
  | negInf, _ => negInf
  | _, negInf => negInf
  | posInf, b => b
  | a, posInf => a
  | finite a, finite b => finite (min a b)

/-- `Math.max` (NaN propagates). -/
def jmax : JSNum → JSNum → JSNum
  | nan, _ => nan
  | _, nan => nan
  | posInf, _ => posInf
  | _, posInf => posInf
  | negInf, b => b
  | a, negInf => a
  | finite a, finite b => finite (max a b)

/-- `Math.floor`. -/
def floor : JSNum → JSNum
  | nan => nan
  | posInf => posInf
  | negInf => negInf
  | finite a => finite (⌊a⌋ : ℤ)

/-- `Math.round` (half-up, i.e. `floor (x + 1/2)` for finite values). -/
def round : JSNum → JSNum
  | nan => nan
  | posInf => posInf
  | negInf => negInf
  | finite a => finite (⌊a + 1 / 2⌋ : ℤ)

/-- The JS comparison `a >= b` (false whenever a NaN is involved). -/
def ge : JSNum → JSNum → Bool
  | nan, _ => false
  | _, nan => false
  | posInf, _ => true
  | _, posInf => false
  | _, negInf => true
  | negInf, _ => false
  | finite a, finite b => decide (b ≤ a)

/-- The JS comparison `a <= b` (false whenever a NaN is involved). -/
def le : JSNum → JSNum → Bool
  | nan, _ => false
  | _, nan => false
  | negInf, _ => true
  | _, negInf => false
  | _, posInf => true
  | posInf, _ => false
  | finite a, finite b => decide (a ≤ b)

def isFinite : JSNum → Bool
  | finite _ => true
  | _ => false

instance : Add JSNum := ⟨add⟩
instance : Sub JSNum := ⟨sub⟩
instance : Mul JSNum := ⟨mul⟩
instance : Div JSNum := ⟨div⟩
instance : Neg JSNum := ⟨neg⟩

@[simp] theorem add_finite (a b : ℚ) : finite a + finite b = finite (a + b) := rfl

@[simp] theorem sub_finite (a b : ℚ) : finite a - finite b = finite (a - b) := by
  show add (finite a) (neg (finite b)) = finite (a - b)
  simp [add, neg, sub_eq_add_neg]

@[simp] theorem mul_finite (a b : ℚ) : finite a * finite b = finite (a * b) := rfl

theorem div_finite (a b : ℚ) (hb : b ≠ 0) : finite a / finite b = finite (a / b) := by
  show div (finite a) (finite b) = finite (a / b)
  simp [div, hb]

@[simp] theorem jmin_finite (a b : ℚ) : jmin (finite a) (finite b) = finite (min a b) := rfl

@[simp] theorem jmax_finite (a b : ℚ) : jmax (finite a) (finite b) = finite (max a b) := rfl

@[simp] theorem floor_finite (a : ℚ) : floor (finite a) = finite (⌊a⌋ : ℤ) := rfl

@[simp] theorem round_finite (a : ℚ) : round (finite a) = finite (⌊a + 1 / 2⌋ : ℤ) := rfl

@[simp] theorem ge_finite (a b : ℚ) : ge (finite a) (finite b) = decide (b ≤ a) := rfl

@[simp] theorem le_finite (a b : ℚ) : le (finite a) (finite b) = decide (a ≤ b) := rfl

@[simp] theorem isFinite_finite (a : ℚ) : isFinite (finite a) = true := rfl

/-- Dividing any JS number by the (positive) zero never yields a finite value. -/
theorem not_isFinite_div_zero (a : JSNum) : isFinite (a / finite 0) = false := by
  show isFinite (div a (finite 0)) = false
  cases a with
  | nan => rfl
  | posInf => simp [div, isFinite]
  | negInf => simp [div, isFinite]
  | finite q =>
      by_cases h0 : 0 < q
      · simp [div, h0, isFinite]
      · by_cases h1 : q < 0 <;> simp [div, h0, h1, isFinite]

/-- A finite value times a non-finite value is never finite. -/
theorem not_isFinite_mul_of_not_isFinite (q : ℚ) (x : JSNum) (hx : isFinite x = false) :
    isFinite (finite q * x) = false := by
  show isFinite (mul (finite q) x) = false
  cases x with
  | nan => rfl
  | posInf =>
      by_cases h0 : 0 < q
      · simp [mul, h0, isFinite]
      · by_cases h1 : q < 0 <;> simp [mul, h0, h1, isFinite]
  | negInf =>
      by_cases h0 : 0 < q
      · simp [mul, h0, isFinite]
      · by_cases h1 : q < 0 <;> simp [mul, h0, h1, isFinite]
  | finite b => simp [isFinite] at hx

/-- The (positive) zero times a non-finite value is `NaN`. -/
theorem zero_mul_of_not_isFinite (x : JSNum) (hx : isFinite x = false) :
    finite 0 * x = nan := by
  show mul (finite 0) x = nan
  cases x with
  | nan => rfl
  | posInf => simp [mul]
  | negInf => simp [mul]
  | finite b => simp [isFinite] at hx

end JSNum

/-!
`const enum RenderMinimap` and the glyph-cell geometry.

The numeric glyph-cell dimensions (`Constants.x1_CHAR_WIDTH`, …) live in
`vs/editor/common/view/minimapCharRenderer`, which is not part of this
repository snapshot.  Modelled from the spec: the spec only says each zoom
category has a fixed pitch, with the two block categories one device pixel
taller than their glyph counterparts, so the four constants are kept abstract
as fields of a `Constants` structure.
-/

inductive RenderMinimap where
  | none : RenderMinimap
  | small : RenderMinimap
  | large : RenderMinimap
  | smallBlocks : RenderMinimap
  | largeBlocks : RenderMinimap
deriving DecidableEq, Repr

structure Constants where
  x1_CHAR_WIDTH : ℤ
  x1_CHAR_HEIGHT : ℤ
  x2_CHAR_WIDTH : ℤ
  x2_CHAR_HEIGHT : ℤ
deriving DecidableEq, Repr

def getMinimapLineHeight (C : Constants) (renderMinimap : RenderMinimap) : ℤ :=
  if renderMinimap = RenderMinimap.large then C.x2_CHAR_HEIGHT
  else if renderMinimap = RenderMinimap.largeBlocks then C.x2_CHAR_HEIGHT + 2
  else if renderMinimap = RenderMinimap.small then C.x1_CHAR_HEIGHT
  else C.x1_CHAR_HEIGHT + 1

def getMinimapCharWidth (C : Constants) (renderMinimap : RenderMinimap) : ℤ :=
  if renderMinimap = RenderMinimap.large then C.x2_CHAR_WIDTH
  else if renderMinimap = RenderMinimap.largeBlocks then C.x2_CHAR_WIDTH
  else if renderMinimap = RenderMinimap.small then C.x1_CHAR_WIDTH
  else C.x1_CHAR_WIDTH

/-- The orthogonal distance to the slider at which dragging "resets". -/
def MOUSE_DRAG_RESET_DISTANCE : ℚ := 140

/-- The fields of `MinimapOptions` consumed by the layout computation.
Caller-supplied configuration values are finite, hence taken in `ℚ`. -/
structure MinimapOptions where
  renderMinimap : RenderMinimap
  pixelRatio : ℚ
  lineHeight : ℚ
  minimapWidth : ℚ
  minimapHeight : ℚ
  canvasInnerWidth : ℚ
  canvasInnerHeight : ℚ
deriving DecidableEq, Repr

structure MinimapLayout where
  scrollTop : JSNum
  computedSliderRatio : JSNum
  sliderTop : JSNum
  sliderHeight : JSNum
  startLineNumber : JSNum
  endLineNumber : JSNum
deriving DecidableEq, Repr

/-- `Math.floor(options.canvasInnerHeight / minimapLineHeight)`. -/
def minimapLinesFittingOf (C : Constants) (options : MinimapOptions) : JSNum :=
  JSNum.floor (JSNum.finite options.canvasInnerHeight /
    JSNum.finite ((getMinimapLineHeight C options.renderMinimap : ℤ) : ℚ))

/-- The desirable slider height (lines 244-259 of minimap.ts). -/
def sliderHeightOf (C : Constants) (options : MinimapOptions)
    (viewportStartLineNumber viewportEndLineNumber viewportHeight : ℚ)
    (viewportContainsWhitespaceGaps : Bool) (lineCount : ℚ) : JSNum :=
  let minimapLineHeight : ℚ := ((getMinimapLineHeight C options.renderMinimap : ℤ) : ℚ)
  if viewportContainsWhitespaceGaps = true ∧ viewportEndLineNumber ≠ lineCount then
    let viewportLineCount := viewportEndLineNumber - viewportStartLineNumber + 1
    JSNum.floor (JSNum.finite viewportLineCount * JSNum.finite minimapLineHeight /
      JSNum.finite options.pixelRatio)
  else
    let expectedViewportLineCount := JSNum.finite viewportHeight / JSNum.finite options.lineHeight
    JSNum.floor (expectedViewportLineCount * JSNum.finite minimapLineHeight /
      JSNum.finite options.pixelRatio)

/-- `Math.min(options.minimapHeight - sliderHeight, (lineCount - 1) * minimapLineHeight / pixelRatio)`. -/
def maxMinimapSliderTopOf (C : Constants) (options : MinimapOptions)
    (viewportStartLineNumber viewportEndLineNumber viewportHeight : ℚ)
    (viewportContainsWhitespaceGaps : Bool) (lineCount : ℚ) : JSNum :=
  let minimapLineHeight : ℚ := ((getMinimapLineHeight C options.renderMinimap : ℤ) : ℚ)
  JSNum.jmin
    (JSNum.finite options.minimapHeight -
      sliderHeightOf C options viewportStartLineNumber viewportEndLineNumber viewportHeight
        viewportContainsWhitespaceGaps lineCount)
    (JSNum.finite (lineCount - 1) * JSNum.finite minimapLineHeight /
      JSNum.finite options.pixelRatio)

/-- `maxMinimapSliderTop / (scrollHeight - viewportHeight)`; no guard against a
zero denominator is present in the source. -/
def computedSliderRatioOf (C : Constants) (options : MinimapOptions)
    (viewportStartLineNumber viewportEndLineNumber viewportHeight : ℚ)
    (viewportContainsWhitespaceGaps : Bool) (lineCount : ℚ)
    (scrollHeight : ℚ) : JSNum :=
  maxMinimapSliderTopOf C options viewportStartLineNumber viewportEndLineNumber viewportHeight
      viewportContainsWhitespaceGaps lineCount /
    (JSNum.finite scrollHeight - JSNum.finite viewportHeight)

/-- `scrollTop * computedSliderRatio`. -/
def sliderTopOf (C : Constants) (options : MinimapOptions)
    (viewportStartLineNumber viewportEndLineNumber viewportHeight : ℚ)
    (viewportContainsWhitespaceGaps : Bool) (lineCount : ℚ)
    (scrollTop scrollHeight : ℚ) : JSNum :=
  JSNum.finite scrollTop *
    computedSliderRatioOf C options viewportStartLineNumber viewportEndLineNumber viewportHeight
      viewportContainsWhitespaceGaps lineCount scrollHeight

/-- `MinimapLayout.create` (lines 216-305 of minimap.ts).  The unused
`scrollbarSliderCenter` parameter is kept for signature fidelity. -/
def MinimapLayout.create (C : Constants) (options : MinimapOptions)
    (viewportStartLineNumber viewportEndLineNumber viewportHeight : ℚ)
    (viewportContainsWhitespaceGaps : Bool) (lineCount : ℚ)
    (_scrollbarSliderCenter : ℚ) (scrollTop scrollHeight : ℚ) : MinimapLayout :=
  let pixelRatio := options.pixelRatio
  let minimapLineHeight : ℚ := ((getMinimapLineHeight C options.renderMinimap : ℤ) : ℚ)
  let minimapLinesFitting := minimapLinesFittingOf C options
  let sliderHeight := sliderHeightOf C options viewportStartLineNumber viewportEndLineNumber
    viewportHeight viewportContainsWhitespaceGaps lineCount
  let computedSliderRatio := computedSliderRatioOf C options viewportStartLineNumber
    viewportEndLineNumber viewportHeight viewportContainsWhitespaceGaps lineCount scrollHeight
  let sliderTop := sliderTopOf C options viewportStartLineNumber viewportEndLineNumber
    viewportHeight viewportContainsWhitespaceGaps lineCount scrollTop scrollHeight
  if JSNum.ge minimapLinesFitting (JSNum.finite lineCount) then
    { scrollTop := JSNum.finite scrollTop
      computedSliderRatio := computedSliderRatio
      sliderTop := sliderTop
      sliderHeight := sliderHeight
      startLineNumber := JSNum.finite 1
      endLineNumber := JSNum.finite lineCount }
  else
    let startLineNumber := JSNum.jmax (JSNum.finite 1)
      (JSNum.floor (JSNum.finite viewportStartLineNumber -
        sliderTop * JSNum.finite pixelRatio / JSNum.finite minimapLineHeight))
    let endLineNumber := JSNum.jmin (JSNum.finite lineCount)
      (startLineNumber + minimapLinesFitting - JSNum.finite 1)
    { scrollTop := JSNum.finite scrollTop
      computedSliderRatio := computedSliderRatio
      sliderTop := sliderTop
      sliderHeight := sliderHeight
      startLineNumber := startLineNumber
      endLineNumber := endLineNumber }

/-- `getDesiredScrollTopFromDelta` (lines 211-214 of minimap.ts). -/
def MinimapLayout.getDesiredScrollTopFromDelta (self : MinimapLayout) (delta : JSNum) : JSNum :=
  let desiredSliderPosition := self.sliderTop + delta
  JSNum.round (desiredSliderPosition / self.computedSliderRatio)

/-- The body of the slider mouse-move monitor callback (lines 546-568 of
minimap.ts): the scroll offset it requests via `setScrollPosition`.
`platform.isWindows` is a platform flag supplied by the environment, taken as
a `Bool` parameter; pointer coordinates are finite device-independent pixels. -/
def sliderMouseMoveRequestedScrollTop (isWindows : Bool)
    (initialMousePosition initialMouseOrthogonalPosition : ℚ)
    (initialSliderState : MinimapLayout) (posx posy : ℚ) : JSNum :=
  let mouseOrthogonalDelta := |posx - initialMouseOrthogonalPosition|
  if isWindows = true ∧ MOUSE_DRAG_RESET_DISTANCE < mouseOrthogonalDelta then
    initialSliderState.scrollTop
  else
    let mouseDelta := posy - initialMousePosition
    initialSliderState.getDesiredScrollTopFromDelta (JSNum.finite mouseDelta)

/-!
The render-reuse engine (`Minimap._renderUntouchedLines`) and the per-frame
record keeping of `Minimap.render`.

Pixel buffers (`ImageData.data`, a `Uint8ClampedArray` of RGBA bytes) are
modelled as total functions from byte offset to byte value; all offsets
touched in the modelled scenarios are in range, so the typed-array bounds
clamping never comes into play.

`RenderedLinesCollection` lives in `vs/editor/browser/view/viewLayer`, which is
not part of this repository snapshot.  Modelled from the spec: rendered-row
records are "kept in a sparse, line-number-indexed structure anchored at the
first rendered line of the prior frame", so `RenderData` stores the anchor
line number and the ordered list of records exactly as `_set` receives them
and `_get` returns them.
-/

/-- A raw byte buffer (`Uint8ClampedArray` contents), by byte offset. -/
def Buf : Type := ℤ → ℕ

structure ImageData where
  width : ℤ
  data : Buf

/-- `targetData.set(lastTargetData.subarray(a, b), d)`: overwrite `b - a`
bytes of `dst` starting at offset `d` with the bytes of `src` at `[a, b)`. -/
def copyRange (src : Buf) (a b : ℤ) (dst : Buf) (d : ℤ) : Buf :=
  fun i => if d ≤ i ∧ i < d + (b - a) then src (a + (i - d)) else dst i

/-- A rendered-row record: the vertical pixel offset at which a line was last
drawn, `-1` being the invalid sentinel (`MinimapLine.INVALID`). -/
structure MinimapLine where
  dy : ℤ
deriving DecidableEq, Repr

def MinimapLine.INVALID : MinimapLine := ⟨-1⟩

/-- The prior frame's render state: anchor line, ordered rendered-row records
and the pixel buffer they were drawn into (`RenderData._get()`). -/
structure RenderData where
  rendLineNumberStart : ℤ
  lines : List MinimapLine
  imageData : ImageData

/-- `lastLineIndex >= 0 && lastLineIndex < lastLinesLength ?
lastLines[lastLineIndex].dy : -1` (lines 812-815 of minimap.ts). -/
def sourceDyOf (lastStartLineNumber : ℤ) (lastLines : List MinimapLine) (lineNumber : ℤ) : ℤ :=
  let lastLineIndex := lineNumber - lastStartLineNumber
  if 0 ≤ lastLineIndex ∧ lastLineIndex < (lastLines.length : ℤ) then
    (lastLines.getD lastLineIndex.toNat MinimapLine.INVALID).dy
  else -1

/-- The mutable state of the copy-merging loop in `_renderUntouchedLines`. -/
@[ext]
structure CopyState where
  needed : List Bool
  copySourceStart : ℤ
  copySourceEnd : ℤ
  copyDestStart : ℤ
  copyDestEnd : ℤ
  dest_dy : ℤ
  target : Buf

/-- One iteration of the loop of `_renderUntouchedLines` (lines 806-848). -/
def untouchedStep (WIDTH minimapLineHeight : ℤ) (lastTargetData : Buf)
    (source_dy : ℤ) (st : CopyState) : CopyState :=
  if source_dy = -1 then
    { st with needed := st.needed ++ [true], dest_dy := st.dest_dy + minimapLineHeight }
  else
    let sourceStart := source_dy * WIDTH * 4
    let sourceEnd := (source_dy + minimapLineHeight) * WIDTH * 4
    let destStart := st.dest_dy * WIDTH * 4
    let destEnd := (st.dest_dy + minimapLineHeight) * WIDTH * 4
    if st.copySourceEnd = sourceStart ∧ st.copyDestEnd = destStart then
      { st with
        copySourceEnd := sourceEnd
        copyDestEnd := destEnd
        needed := st.needed ++ [false]
        dest_dy := st.dest_dy + minimapLineHeight }
    else
      let target' :=
        if st.copySourceStart ≠ -1 then
          copyRange lastTargetData st.copySourceStart st.copySourceEnd st.target st.copyDestStart
        else st.target
      { needed := st.needed ++ [false]
        copySourceStart := sourceStart
        copySourceEnd := sourceEnd
        copyDestStart := destStart
        copyDestEnd := destEnd
        dest_dy := st.dest_dy + minimapLineHeight
        target := target' }

/-- The loop of `_renderUntouchedLines`, iterating `n` line numbers starting
at `lineNumber`; `sdy` gives the prior vertical offset of a line number. -/
def untouchedLoop (WIDTH minimapLineHeight : ℤ) (lastTargetData : Buf) (sdy : ℤ → ℤ) :
    (lineNumber : ℤ) → (n : ℕ) → CopyState → CopyState
  | _, 0, st => st
  | lineNumber, n + 1, st =>
      untouchedLoop WIDTH minimapLineHeight lastTargetData sdy (lineNumber + 1) n
        (untouchedStep WIDTH minimapLineHeight lastTargetData (sdy lineNumber) st)

/-- `Minimap._renderUntouchedLines` (lines 777-859 of minimap.ts), returning
the per-row "needs rasterization" flags and the updated target bytes. -/
def Minimap._renderUntouchedLines (target : ImageData)
    (startLineNumber endLineNumber minimapLineHeight : ℤ)
    (lastRenderData : Option RenderData) : List Bool × Buf :=
  match lastRenderData with
  | none =>
      (List.replicate (endLineNumber - startLineNumber + 1).toNat true, target.data)
  | some lastRenderData =>
      let lastTargetData := lastRenderData.imageData.data
      let lastStartLineNumber := lastRenderData.rendLineNumberStart
      let lastLines := lastRenderData.lines
      let WIDTH := target.width
      let st0 : CopyState :=
        { needed := []
          copySourceStart := -1
          copySourceEnd := -1
          copyDestStart := -1
          copyDestEnd := -1
          dest_dy := 0
          target := target.data }
      let stF := untouchedLoop WIDTH minimapLineHeight lastTargetData
        (sourceDyOf lastStartLineNumber lastLines) startLineNumber
        (endLineNumber - startLineNumber + 1).toNat st0
      let finalTarget :=
        if stF.copySourceStart ≠ -1 then
          copyRange lastTargetData stF.copySourceStart stF.copySourceEnd stF.target stF.copyDestStart
        else stF.target
      (stF.needed, finalTarget)

/-- The record-building loop of `Minimap.render` (lines 745-767): for each of
the `n` visible rows record the running `dy`, invoking `_renderLine` at
`(lineIndex, dy)` when the row needs rasterization, then advance `dy` by one
row pitch.  Returns the rendered-row records and the rasterization calls. -/
def renderLinesLoop (minimapLineHeight : ℤ) (needed : List Bool) :
    (n : ℕ) → (lineIndex : ℕ) → (dy : ℤ) → List MinimapLine × List (ℕ × ℤ)
  | 0, _, _ => ([], [])
  | n + 1, lineIndex, dy =>
      let rest := renderLinesLoop minimapLineHeight needed n (lineIndex + 1)
        (dy + minimapLineHeight)
      (⟨dy⟩ :: rest.1,
        if needed.getD lineIndex false then (lineIndex, dy) :: rest.2 else rest.2)

/-- The data-producing core of `Minimap.render` (lines 703-775 of minimap.ts)
for a visible range `[startLineNumber, endLineNumber]`: reuse untouched rows,
rasterize the rest, and save the new `RenderData`.  The DOM/canvas plumbing is
external.  The second component lists the `(lineIndex, dy)` pairs at which
`_renderLine` is invoked. -/
def Minimap.render (buffer : ImageData)
    (startLineNumber endLineNumber minimapLineHeight : ℤ)
    (lastRenderData : Option RenderData) : RenderData × List (ℕ × ℤ) :=
  let res := Minimap._renderUntouchedLines buffer startLineNumber endLineNumber
    minimapLineHeight lastRenderData
  let lineCount := (endLineNumber - startLineNumber + 1).toNat
  let loop := renderLinesLoop minimapLineHeight res.1 lineCount 0 0
  ({ rendLineNumberStart := startLineNumber
     lines := loop.1
     imageData := { width := buffer.width, data := res.2 } }, loop.2)

/-!
The line rasterizer (`Minimap._renderLine`, lines 861-952 of minimap.ts).

The four glyph-cell renderers (`x1RenderChar`, `x2RenderChar`,
`x1BlockRenderChar`, `x2BlockRenderChar`) are external collaborators from
`vs/editor/common/view/minimapCharRenderer`; a call to any of them is modelled
as an emitted `DrawCall` recording the cell position, character code and token
color.  `content.charCodeAt(i)` for an index past the end of the line (which
JS answers with `NaN`) is modelled as the code `0`; like `NaN`, the code `0`
is neither a tab nor a space, so it takes the same branch.  Tab arithmetic is
modelled over `ℕ`, which agrees with JS for `tabSize ≥ 1`; a zero tab size
(which would make the JS expression `NaN`) is never supplied by the editor.
-/

structure DrawCall where
  dx : ℤ
  dy : ℤ
  charCode : ℕ
  colorId : ℕ
deriving DecidableEq, Repr

/-- One token run of a line: exclusive end index and foreground color id. -/
structure MinimapToken where
  endIndex : ℕ
  foreground : ℕ
deriving DecidableEq, Repr

structure ViewLineData where
  content : List ℕ
  tokens : List MinimapToken
deriving DecidableEq, Repr

/-- The inner loop of `_renderLine` (lines 891-950): walk characters
`charIndex, …` of the current token (`fuel` characters remain before
`tokenEndIndex`) tracking the pixel cursor `dx` and the cumulative tab
adjustment.  Returns the emitted draw calls, and the final
`(dx, charIndex, tabsCharDelta)` — or `none` if the right edge was hit,
which aborts the whole line. -/
def renderLineChars (charWidth maxDx : ℤ) (tabSize : ℕ) (content : List ℕ)
    (colorId : ℕ) (dy : ℤ) :
    (fuel : ℕ) → (dx : ℤ) → (charIndex tabsCharDelta : ℕ) →
      List DrawCall × Option (ℤ × ℕ × ℕ)
  | 0, dx, charIndex, tabsCharDelta => ([], some (dx, charIndex, tabsCharDelta))
  | fuel + 1, dx, charIndex, tabsCharDelta =>
      if maxDx < dx then
        -- hit edge of minimap
        ([], none)
      else
        let charCode := content.getD charIndex 0
        if charCode = 9 then
          let insertSpacesCount := tabSize - (charIndex + tabsCharDelta) % tabSize
          renderLineChars charWidth maxDx tabSize content colorId dy fuel
            (dx + (insertSpacesCount : ℤ) * charWidth) (charIndex + 1)
            (tabsCharDelta + (insertSpacesCount - 1))
        else if charCode = 32 then
          renderLineChars charWidth maxDx tabSize content colorId dy fuel
            (dx + charWidth) (charIndex + 1) tabsCharDelta
        else
          let rest := renderLineChars charWidth maxDx tabSize content colorId dy fuel
            (dx + charWidth) (charIndex + 1) tabsCharDelta
          (⟨dx, dy, charCode, colorId⟩ :: rest.1, rest.2)

/-- The outer token loop of `_renderLine` (lines 881-951). -/
def renderLineTokens (charWidth maxDx : ℤ) (tabSize : ℕ) (content : List ℕ) (dy : ℤ) :
    (tokens : List MinimapToken) → (dx : ℤ) → (charIndex tabsCharDelta : ℕ) →
      List DrawCall
  | [], _, _, _ => []
  | token :: rest, dx, charIndex, tabsCharDelta =>
      let r := renderLineChars charWidth maxDx tabSize content token.foreground dy
        (token.endIndex - charIndex) dx charIndex tabsCharDelta
      match r.2 with
      | some (dx', charIndex', tabsCharDelta') =>
          r.1 ++ renderLineTokens charWidth maxDx tabSize content dy rest dx'
            charIndex' tabsCharDelta'
      | none => r.1

/-- `Minimap._renderLine`: the sequence of glyph cells drawn for one line. -/
def Minimap._renderLine (target : ImageData) (C : Constants)
    (renderMinimap : RenderMinimap) (dy : ℤ) (tabSize : ℕ)
    (lineData : ViewLineData) : List DrawCall :=
  let charWidth := getMinimapCharWidth C renderMinimap
  let maxDx := target.width - charWidth
  renderLineTokens charWidth maxDx tabSize lineData.content dy lineData.tokens 0 0 0

/-!
Structural facts about `MinimapLayout.create`: the slider geometry fields do
not depend on the visible-range branch.
-/

theorem MinimapLayout.create_computedSliderRatio (C : Constants) (options : MinimapOptions)
    (vS vE vH : ℚ) (gaps : Bool) (lc center st sh : ℚ) :
    (MinimapLayout.create C options vS vE vH gaps lc center st sh).computedSliderRatio =
      computedSliderRatioOf C options vS vE vH gaps lc sh := by
  unfold MinimapLayout.create
  dsimp only
  split <;> rfl

theorem MinimapLayout.create_sliderTop (C : Constants) (options : MinimapOptions)
    (vS vE vH : ℚ) (gaps : Bool) (lc center st sh : ℚ) :
    (MinimapLayout.create C options vS vE vH gaps lc center st sh).sliderTop =
      sliderTopOf C options vS vE vH gaps lc st sh := by
  unfold MinimapLayout.create
  dsimp only
  split <;> rfl

theorem MinimapLayout.create_sliderHeight (C : Constants) (options : MinimapOptions)
    (vS vE vH : ℚ) (gaps : Bool) (lc center st sh : ℚ) :
    (MinimapLayout.create C options vS vE vH gaps lc center st sh).sliderHeight =
      sliderHeightOf C options vS vE vH gaps lc := by
  unfold MinimapLayout.create
  dsimp only
  split <;> rfl

theorem MinimapLayout.create_scrollTop (C : Constants) (options : MinimapOptions)
    (vS vE vH : ℚ) (gaps : Bool) (lc center st sh : ℚ) :
    (MinimapLayout.create C options vS vE vH gaps lc center st sh).scrollTop =
      JSNum.finite st := by
  unfold MinimapLayout.create
  dsimp only
  split <;> rfl

/-- C3: during a slider drag on Windows, a pointer-move whose horizontal
displacement from the initial pointer position exceeds the 140-pixel reset
distance requests exactly the scroll offset captured at drag start, whatever
the vertical position `posy` of the event is. -/
theorem C3_drag_snapback_windows (initialMousePosition initialMouseOrthogonalPosition : ℚ)
    (initialSliderState : MinimapLayout) (posx posy : ℚ)
    (h : MOUSE_DRAG_RESET_DISTANCE < |posx - initialMouseOrthogonalPosition|) :
    sliderMouseMoveRequestedScrollTop true initialMousePosition
        initialMouseOrthogonalPosition initialSliderState posx posy =
      initialSliderState.scrollTop := by
  unfold sliderMouseMoveRequestedScrollTop
  rw [if_pos ⟨rfl, h⟩]

theorem C3_drag_snapback_windows_witness :
    sliderMouseMoveRequestedScrollTop true 7 0
        ⟨JSNum.finite 5, JSNum.finite 1, JSNum.finite 5, JSNum.finite 10,
          JSNum.finite 1, JSNum.finite 2⟩ 141 33 = JSNum.finite 5 :=
  C3_drag_snapback_windows 7 0 _ 141 33 (by norm_num [MOUSE_DRAG_RESET_DISTANCE])

/-- C4: whenever the number of preview rows fitting in the buffer,
`⌊canvasInnerHeight / minimapLineHeight⌋`, is at least the document line
count, the created layout's visible range is exactly `[1, lineCount]`. -/
theorem C4_full_fit (C : Constants) (options : MinimapOptions)
    (vS vE vH : ℚ) (gaps : Bool) (lc center st sh : ℚ)
    (hmlh : 0 < getMinimapLineHeight C options.renderMinimap)
    (hfit : lc ≤ ((⌊options.canvasInnerHeight /
        ((getMinimapLineHeight C options.renderMinimap : ℤ) : ℚ)⌋ : ℤ) : ℚ)) :
    (MinimapLayout.create C options vS vE vH gaps lc center st sh).startLineNumber =
        JSNum.finite 1 ∧
      (MinimapLayout.create C options vS vE vH gaps lc center st sh).endLineNumber =
        JSNum.finite lc := by
  have hne : ((getMinimapLineHeight C options.renderMinimap : ℤ) : ℚ) ≠ 0 := by
    exact_mod_cast hmlh.ne'
  have hcond : JSNum.ge (minimapLinesFittingOf C options) (JSNum.finite lc) = true := by
    unfold minimapLinesFittingOf
    rw [JSNum.div_finite _ _ hne]
    simp [hfit]
  unfold MinimapLayout.create
  rw [if_pos hcond]
  exact ⟨rfl, rfl⟩

theorem C4_full_fit_witness :
    (MinimapLayout.create ⟨1, 2, 2, 4⟩
        ⟨RenderMinimap.small, 1, 20, 100, 100, 100, 200⟩
        1 30 600 false 100 0 0 600).startLineNumber = JSNum.finite 1 ∧
      (MinimapLayout.create ⟨1, 2, 2, 4⟩
        ⟨RenderMinimap.small, 1, 20, 100, 100, 100, 200⟩
        1 30 600 false 100 0 0 600).endLineNumber = JSNum.finite 100 :=
  C4_full_fit ⟨1, 2, 2, 4⟩ ⟨RenderMinimap.small, 1, 20, 100, 100, 100, 200⟩
    1 30 600 false 100 0 0 600 (by decide)
    (by rw [show getMinimapLineHeight ⟨1, 2, 2, 4⟩ RenderMinimap.small = 2 from rfl]
        norm_num)

/-- C9: the delta-to-scroll function is `round((sliderTop + delta) / ratio)`,
and it inverts the slider-position computation: a layout created with a finite
nonzero ratio from an integer scrollTop maps a zero delta back to that same
scrollTop (since `sliderTop = scrollTop * ratio`). -/
theorem C9_desired_scrollTop_inverse (C : Constants) (options : MinimapOptions)
    (vS vE vH : ℚ) (gaps : Bool) (lc center sh : ℚ) (k : ℤ) (r : ℚ)
    (hr : (MinimapLayout.create C options vS vE vH gaps lc center (k : ℚ) sh).computedSliderRatio
        = JSNum.finite r)
    (hr0 : r ≠ 0) :
    (∀ (layout : MinimapLayout) (delta : JSNum),
        layout.getDesiredScrollTopFromDelta delta =
          JSNum.round ((layout.sliderTop + delta) / layout.computedSliderRatio)) ∧
      (MinimapLayout.create C options vS vE vH gaps lc center (k : ℚ)
          sh).getDesiredScrollTopFromDelta (JSNum.finite 0) = JSNum.finite (k : ℚ) := by
  refine ⟨fun layout delta => rfl, ?_⟩
  rw [MinimapLayout.create_computedSliderRatio] at hr
  unfold MinimapLayout.getDesiredScrollTopFromDelta
  rw [MinimapLayout.create_sliderTop, MinimapLayout.create_computedSliderRatio]
  unfold sliderTopOf
  rw [hr]
  dsimp only
  rw [JSNum.mul_finite, JSNum.add_finite, JSNum.div_finite _ _ hr0]
  rw [add_zero, mul_div_cancel_right₀ _ hr0, JSNum.round_finite]
  norm_num

/-- A shared concrete configuration for layout examples. -/
def exC : Constants := ⟨1, 2, 2, 4⟩

/-- Concrete options: pixelRatio 1, lineHeight 20, container 100×100 CSS px,
canvas 100×200 device px, small (glyph 1x) zoom. -/
def exOptions : MinimapOptions := ⟨RenderMinimap.small, 1, 20, 100, 100, 100, 200⟩

theorem ex_mlh : getMinimapLineHeight exC exOptions.renderMinimap = 2 := rfl

theorem ex_sliderHeight : sliderHeightOf exC exOptions 1 30 600 false 100 = JSNum.finite 60 := by
  unfold sliderHeightOf
  rw [ex_mlh]
  rw [if_neg (by simp)]
  dsimp only
  rw [show exOptions.lineHeight = 20 from rfl, show exOptions.pixelRatio = 1 from rfl]
  rw [JSNum.div_finite _ _ (by norm_num)]
  rw [JSNum.mul_finite, JSNum.div_finite _ _ (by norm_num), JSNum.floor_finite]
  norm_num

theorem ex_maxTop :
    maxMinimapSliderTopOf exC exOptions 1 30 600 false 100 = JSNum.finite 40 := by
  unfold maxMinimapSliderTopOf
  rw [ex_mlh, ex_sliderHeight]
  dsimp only
  rw [show exOptions.minimapHeight = 100 from rfl, show exOptions.pixelRatio = 1 from rfl]
  rw [JSNum.sub_finite, JSNum.mul_finite, JSNum.div_finite _ _ (by norm_num),
    JSNum.jmin_finite]
  norm_num

theorem ex_ratio_1400 :
    computedSliderRatioOf exC exOptions 1 30 600 false 100 2000 = JSNum.finite (1 / 35) := by
  unfold computedSliderRatioOf
  rw [ex_maxTop, JSNum.sub_finite, JSNum.div_finite _ _ (by norm_num)]
  norm_num

theorem C9_desired_scrollTop_inverse_witness :
    (MinimapLayout.create exC exOptions 1 30 600 false 100 0 ((700 : ℤ) : ℚ)
        2000).getDesiredScrollTopFromDelta (JSNum.finite 0) = JSNum.finite ((700 : ℤ) : ℚ) :=
  (C9_desired_scrollTop_inverse exC exOptions 1 30 600 false 100 0 2000 700 (1 / 35)
    (by rw [MinimapLayout.create_computedSliderRatio]; exact ex_ratio_1400)
    (by norm_num)).2

/-- C1 (amended): when the document does not scroll (`scrollHeight =
viewportHeight`), `MinimapLayout.create` performs the division with a zero
denominator — there is no short-circuit: the computed ratio is non-finite
(±∞ or NaN), the resulting sliderTop is non-finite as well, and in particular
it is NaN (not the fixed value 0) for the only consistent scroll offset
`scrollTop = 0`. -/
theorem C1_zero_scroll_range_divides_by_zero (C : Constants) (options : MinimapOptions)
    (vS vE vH : ℚ) (gaps : Bool) (lc center st : ℚ) :
    JSNum.isFinite
        ((MinimapLayout.create C options vS vE vH gaps lc center st vH).computedSliderRatio) =
        false ∧
      JSNum.isFinite
        ((MinimapLayout.create C options vS vE vH gaps lc center st vH).sliderTop) = false ∧
      (st = 0 →
        (MinimapLayout.create C options vS vE vH gaps lc center st vH).sliderTop = JSNum.nan) := by
  have h1 : JSNum.isFinite (computedSliderRatioOf C options vS vE vH gaps lc vH) = false := by
    unfold computedSliderRatioOf
    rw [JSNum.sub_finite, sub_self]
    exact JSNum.not_isFinite_div_zero _
  refine ⟨?_, ?_, ?_⟩
  · rw [MinimapLayout.create_computedSliderRatio]
    exact h1
  · rw [MinimapLayout.create_sliderTop]
    unfold sliderTopOf
    exact JSNum.not_isFinite_mul_of_not_isFinite _ _ h1
  · intro hst
    subst hst
    rw [MinimapLayout.create_sliderTop]
    unfold sliderTopOf
    exact JSNum.zero_mul_of_not_isFinite _ h1

theorem C1_zero_scroll_range_witness :
    (MinimapLayout.create exC exOptions 1 30 600 false 100 0 0 600).sliderTop = JSNum.nan :=
  (C1_zero_scroll_range_divides_by_zero exC exOptions 1 30 600 false 100 0 0).2.2 rfl

/-- C1 counterexample: at a concrete input whose scrollable range is zero
(`scrollHeight = viewportHeight = 600`), the slider-position computation does
not short-circuit: the ratio is `+∞` (division of the finite maxSliderTop 40
by zero) and the resulting sliderTop is NaN — not the fixed value 0. -/
theorem C1_counterexample_no_guard :
    (MinimapLayout.create exC exOptions 1 30 600 false 100 0 0 600).computedSliderRatio =
        JSNum.posInf ∧
      (MinimapLayout.create exC exOptions 1 30 600 false 100 0 0 600).sliderTop = JSNum.nan ∧
      (MinimapLayout.create exC exOptions 1 30 600 false 100 0 0 600).sliderTop ≠
        JSNum.finite 0 := by
  have hratio : computedSliderRatioOf exC exOptions 1 30 600 false 100 600 = JSNum.posInf := by
    unfold computedSliderRatioOf
    rw [ex_maxTop, JSNum.sub_finite, sub_self]
    rfl
  have htop : sliderTopOf exC exOptions 1 30 600 false 100 0 600 = JSNum.nan := by
    unfold sliderTopOf
    rw [hratio]
    rfl
  refine ⟨?_, ?_, ?_⟩
  · rw [MinimapLayout.create_computedSliderRatio]
    exact hratio
  · rw [MinimapLayout.create_sliderTop]
    exact htop
  · rw [MinimapLayout.create_sliderTop, htop]
    exact fun h => JSNum.noConfusion h

/-- C8: with no prior frame render state, `_renderUntouchedLines` returns
normally, marking every one of the `endLineNumber - startLineNumber + 1` rows
as needing rasterization and leaving the target bytes untouched. -/
theorem C8_no_prior_state_rasterize_everything (target : ImageData)
    (startLineNumber endLineNumber minimapLineHeight : ℤ) :
    (Minimap._renderUntouchedLines target startLineNumber endLineNumber minimapLineHeight
          Option.none).1.length = (endLineNumber - startLineNumber + 1).toNat ∧
      (∀ i : ℕ, i < (endLineNumber - startLineNumber + 1).toNat →
        (Minimap._renderUntouchedLines target startLineNumber endLineNumber minimapLineHeight
          Option.none).1.getD i false = true) ∧
      (Minimap._renderUntouchedLines target startLineNumber endLineNumber minimapLineHeight
          Option.none).2 = target.data := by
  refine ⟨by simp [Minimap._renderUntouchedLines], ?_, rfl⟩
  intro i hi
  simp [Minimap._renderUntouchedLines, List.getD_eq_getElem?_getD, List.getElem?_replicate, hi]

theorem C8_no_prior_state_witness :
    (Minimap._renderUntouchedLines ⟨2, fun _ => 0⟩ 1 3 2 Option.none).1.getD 1 false = true :=
  (C8_no_prior_state_rasterize_everything ⟨2, fun _ => 0⟩ 1 3 2).2.1 1 (by decide)

/-- Stepping the inner loop over a tab character: the cursor advances by
`tabSize - (charIndex + tabsCharDelta) % tabSize` glyph-cell widths, the tab
adjustment grows accordingly, and nothing is drawn. -/
theorem renderLineChars_tab_step (charWidth maxDx : ℤ) (tabSize : ℕ) (content : List ℕ)
    (colorId : ℕ) (dy : ℤ) (fuel : ℕ) (dx : ℤ) (ci td : ℕ)
    (hEdge : ¬ maxDx < dx) (h9 : content.getD ci 0 = 9) :
    renderLineChars charWidth maxDx tabSize content colorId dy (fuel + 1) dx ci td =
      renderLineChars charWidth maxDx tabSize content colorId dy fuel
        (dx + ((tabSize - (ci + td) % tabSize : ℕ) : ℤ) * charWidth) (ci + 1)
        (td + ((tabSize - (ci + td) % tabSize) - 1)) := by
  simp only [renderLineChars]
  rw [if_neg hEdge, if_pos h9]

/-- Stepping the inner loop over a space character: the cursor advances by
exactly one glyph-cell width and nothing is drawn. -/
theorem renderLineChars_space_step (charWidth maxDx : ℤ) (tabSize : ℕ) (content : List ℕ)
    (colorId : ℕ) (dy : ℤ) (fuel : ℕ) (dx : ℤ) (ci td : ℕ)
    (hEdge : ¬ maxDx < dx) (h32 : content.getD ci 0 = 32) :
    renderLineChars charWidth maxDx tabSize content colorId dy (fuel + 1) dx ci td =
      renderLineChars charWidth maxDx tabSize content colorId dy fuel
        (dx + charWidth) (ci + 1) td := by
  simp only [renderLineChars]
  rw [if_neg hEdge, if_neg (by rw [h32]; decide), if_pos h32]

/-- Every glyph cell emitted by the inner loop sits at `dx ≤ maxDx`. -/
theorem renderLineChars_dx_le (charWidth maxDx : ℤ) (tabSize : ℕ) (content : List ℕ)
    (colorId : ℕ) (dy : ℤ) :
    ∀ (fuel : ℕ) (dx : ℤ) (ci td : ℕ) (d : DrawCall),
      d ∈ (renderLineChars charWidth maxDx tabSize content colorId dy fuel dx ci td).1 →
      d.dx ≤ maxDx := by
  intro fuel
  induction fuel with
  | zero =>
      intro dx ci td d hd
      simp [renderLineChars] at hd
  | succ n ih =>
      intro dx ci td d hd
      simp only [renderLineChars] at hd
      by_cases hEdge : maxDx < dx
      · rw [if_pos hEdge] at hd
        simp at hd
      · rw [if_neg hEdge] at hd
        by_cases h9 : content.getD ci 0 = 9
        · rw [if_pos h9] at hd
          exact ih _ _ _ d hd
        · rw [if_neg h9] at hd
          by_cases h32 : content.getD ci 0 = 32
          · rw [if_pos h32] at hd
            exact ih _ _ _ d hd
          · rw [if_neg h32] at hd
            rcases List.mem_cons.mp hd with h | h
            · subst h
              exact le_of_not_lt hEdge
            · exact ih _ _ _ d h

/-- Every glyph cell emitted by the token loop sits at `dx ≤ maxDx`. -/
theorem renderLineTokens_dx_le (charWidth maxDx : ℤ) (tabSize : ℕ) (content : List ℕ)
    (dy : ℤ) :
    ∀ (tokens : List MinimapToken) (dx : ℤ) (ci td : ℕ) (d : DrawCall),
      d ∈ renderLineTokens charWidth maxDx tabSize content dy tokens dx ci td →
      d.dx ≤ maxDx := by
  intro tokens
  induction tokens with
  | nil =>
      intro dx ci td d hd
      simp [renderLineTokens] at hd
  | cons tok rest ih =>
      intro dx ci td d hd
      simp only [renderLineTokens] at hd
      rcases hres : (renderLineChars charWidth maxDx tabSize content tok.foreground dy
          (tok.endIndex - ci) dx ci td).2 with _ | s
      · rw [hres] at hd
        exact renderLineChars_dx_le charWidth maxDx tabSize content tok.foreground dy
          _ _ _ _ d hd
      · rw [hres] at hd
        rcases s with ⟨dx', ci', td'⟩
        rcases List.mem_append.mp hd with h | h
        · exact renderLineChars_dx_le charWidth maxDx tabSize content tok.foreground dy
            _ _ _ _ d h
        · exact ih _ _ _ d h

/-- C5: `_renderLine` never draws a glyph cell past the right edge — every
emitted draw call satisfies `dx + charWidth ≤ target.width` — and as soon as
the cursor exceeds `target.width - charWidth` the inner loop returns
immediately, so the remaining characters of the line are not drawn. -/
theorem C5_right_edge_clip (target : ImageData) (C : Constants)
    (renderMinimap : RenderMinimap) (dy : ℤ) (tabSize : ℕ) (lineData : ViewLineData) :
    (∀ d ∈ Minimap._renderLine target C renderMinimap dy tabSize lineData,
        d.dx + getMinimapCharWidth C renderMinimap ≤ target.width) ∧
      (∀ (colorId : ℕ) (fuel : ℕ) (dx : ℤ) (ci td : ℕ),
        target.width - getMinimapCharWidth C renderMinimap < dx →
        renderLineChars (getMinimapCharWidth C renderMinimap)
            (target.width - getMinimapCharWidth C renderMinimap) tabSize lineData.content
            colorId dy (fuel + 1) dx ci td = ([], Option.none)) := by
  constructor
  · intro d hd
    unfold Minimap._renderLine at hd
    have h := renderLineTokens_dx_le (getMinimapCharWidth C renderMinimap)
      (target.width - getMinimapCharWidth C renderMinimap) tabSize lineData.content dy
      lineData.tokens 0 0 0 d hd
    omega
  · intro colorId fuel dx ci td hEdge
    simp only [renderLineChars]
    rw [if_pos hEdge]

theorem C5_right_edge_clip_witness :
    ((⟨2, 0, 99, 5⟩ : DrawCall).dx +
        getMinimapCharWidth ⟨1, 2, 2, 4⟩ RenderMinimap.small ≤ (3 : ℤ)) ∧
      renderLineChars (getMinimapCharWidth ⟨1, 2, 2, 4⟩ RenderMinimap.small)
          ((3 : ℤ) - getMinimapCharWidth ⟨1, 2, 2, 4⟩ RenderMinimap.small) 4
          [97, 98, 99, 100] 5 0 (0 + 1) 3 3 0 = ([], Option.none) :=
  ⟨(C5_right_edge_clip ⟨3, fun _ => 0⟩ ⟨1, 2, 2, 4⟩ RenderMinimap.small 0 4
      ⟨[97, 98, 99, 100], [⟨4, 5⟩]⟩).1 ⟨2, 0, 99, 5⟩ (by decide),
    (C5_right_edge_clip ⟨3, fun _ => 0⟩ ⟨1, 2, 2, 4⟩ RenderMinimap.small 0 4
      ⟨[97, 98, 99, 100], [⟨4, 5⟩]⟩).2 5 0 3 3 0 (by decide)⟩

/-- C6: in `_renderLine` a tab advances the cursor by
`tabSize - (charIndex + tabsCharDelta) % tabSize` glyph-cell widths and a
space by exactly one, neither emitting a draw call; in particular the line
"a\tb" (char codes 97, 9, 98) with tab width 4 rendered from column 0 draws
the glyph for 'b' at horizontal position `4 * charWidth` — at column 4 (dx 4
for the 1-wide small glyphs, dx 8 for the 2-wide large glyphs), not column 1. -/
theorem C6_tab_space_expansion (charWidth maxDx : ℤ) (tabSize : ℕ) (content : List ℕ)
    (colorId : ℕ) (dy : ℤ) :
    (∀ (fuel : ℕ) (dx : ℤ) (ci td : ℕ), ¬ maxDx < dx → content.getD ci 0 = 9 →
        renderLineChars charWidth maxDx tabSize content colorId dy (fuel + 1) dx ci td =
          renderLineChars charWidth maxDx tabSize content colorId dy fuel
            (dx + ((tabSize - (ci + td) % tabSize : ℕ) : ℤ) * charWidth) (ci + 1)
            (td + ((tabSize - (ci + td) % tabSize) - 1))) ∧
      (∀ (fuel : ℕ) (dx : ℤ) (ci td : ℕ), ¬ maxDx < dx → content.getD ci 0 = 32 →
        renderLineChars charWidth maxDx tabSize content colorId dy (fuel + 1) dx ci td =
          renderLineChars charWidth maxDx tabSize content colorId dy fuel
            (dx + charWidth) (ci + 1) td) ∧
      (∀ (dy' : ℤ) (cid : ℕ) (data : Buf),
        Minimap._renderLine ⟨10, data⟩ ⟨1, 2, 2, 4⟩ RenderMinimap.small dy' 4
            ⟨[97, 9, 98], [⟨3, cid⟩]⟩ = [⟨0, dy', 97, cid⟩, ⟨4, dy', 98, cid⟩]) ∧
      (∀ (dy' : ℤ) (cid : ℕ) (data : Buf),
        Minimap._renderLine ⟨10, data⟩ ⟨1, 2, 2, 4⟩ RenderMinimap.large dy' 4
            ⟨[97, 9, 98], [⟨3, cid⟩]⟩ = [⟨0, dy', 97, cid⟩, ⟨8, dy', 98, cid⟩]) := by
  refine ⟨?_, ?_, ?_, ?_⟩
  · intro fuel dx ci td hEdge h9
    exact renderLineChars_tab_step charWidth maxDx tabSize content colorId dy fuel dx ci td
      hEdge h9
  · intro fuel dx ci td hEdge h32
    exact renderLineChars_space_step charWidth maxDx tabSize content colorId dy fuel dx ci td
      hEdge h32
  · intro dy' cid data
    rfl
  · intro dy' cid data
    rfl

theorem C6_tab_space_expansion_witness :
    (renderLineChars 1 9 4 [97, 9, 98] 5 0 (0 + 1) 1 1 0 =
        renderLineChars 1 9 4 [97, 9, 98] 5 0 0
          (1 + ((4 - (1 + 0) % 4 : ℕ) : ℤ) * 1) (1 + 1) (0 + ((4 - (1 + 0) % 4) - 1))) ∧
      (renderLineChars 1 9 4 [32, 32] 5 0 (0 + 1) 0 0 0 =
        renderLineChars 1 9 4 [32, 32] 5 0 0 (0 + 1) (0 + 1) 0) ∧
      Minimap._renderLine ⟨10, fun _ => 0⟩ ⟨1, 2, 2, 4⟩ RenderMinimap.small 0 4
          ⟨[97, 9, 98], [⟨3, 5⟩]⟩ = [⟨0, 0, 97, 5⟩, ⟨4, 0, 98, 5⟩] :=
  ⟨(C6_tab_space_expansion 1 9 4 [97, 9, 98] 5 0).1 0 1 1 0 (by decide) (by decide),
    (C6_tab_space_expansion 1 9 4 [32, 32] 5 0).2.1 0 0 0 0 (by decide) (by decide),
    (C6_tab_space_expansion 1 9 4 [97, 9, 98] 5 0).2.2.1 0 5 (fun _ => 0)⟩

/-- Concrete options with a short container (10 CSS px, 10 device px high):
the viewport-derived slider height (60) exceeds the container. -/
def exOptions7 : MinimapOptions := ⟨RenderMinimap.small, 1, 20, 100, 10, 100, 10⟩

theorem ex7_sliderHeight :
    sliderHeightOf exC exOptions7 1 30 600 false 100 = JSNum.finite 60 := by
  unfold sliderHeightOf
  rw [show getMinimapLineHeight exC exOptions7.renderMinimap = 2 from rfl]
  rw [if_neg (by simp)]
  dsimp only
  rw [show exOptions7.lineHeight = 20 from rfl, show exOptions7.pixelRatio = 1 from rfl]
  rw [JSNum.div_finite _ _ (by norm_num)]
  rw [JSNum.mul_finite, JSNum.div_finite _ _ (by norm_num), JSNum.floor_finite]
  norm_num

theorem ex7_maxTop :
    maxMinimapSliderTopOf exC exOptions7 1 30 600 false 100 = JSNum.finite (-50) := by
  unfold maxMinimapSliderTopOf
  rw [show getMinimapLineHeight exC exOptions7.renderMinimap = 2 from rfl, ex7_sliderHeight]
  dsimp only
  rw [show exOptions7.minimapHeight = 10 from rfl, show exOptions7.pixelRatio = 1 from rfl]
  rw [JSNum.sub_finite, JSNum.mul_finite, JSNum.div_finite _ _ (by norm_num),
    JSNum.jmin_finite]
  norm_num

theorem ex7_sliderTop :
    sliderTopOf exC exOptions7 1 30 600 false 100 1400 2000 = JSNum.finite (-50) := by
  unfold sliderTopOf computedSliderRatioOf
  rw [ex7_maxTop, JSNum.sub_finite, JSNum.div_finite _ _ (by norm_num), JSNum.mul_finite]
  norm_num

/-- C7 counterexample: a concrete input satisfying
`0 ≤ scrollTop ≤ scrollHeight - viewportHeight` whose computed slider height
(60) exceeds the container height (10): the layout places the slider at
sliderTop = -50, outside the container bounds. -/
theorem C7_counterexample_slider_out_of_bounds :
    ((0 : ℚ) ≤ 1400 ∧ (1400 : ℚ) ≤ 2000 - 600) ∧
      (MinimapLayout.create exC exOptions7 1 30 600 false 100 0 1400 2000).sliderTop =
        JSNum.finite (-50) ∧
      ¬ (0 : ℚ) ≤ -50 := by
  refine ⟨⟨by norm_num, by norm_num⟩, ?_, by norm_num⟩
  rw [MinimapLayout.create_sliderTop]
  exact ex7_sliderTop

/-- The desirable slider height is a finite value whenever pixelRatio and
lineHeight are nonzero. -/
theorem sliderHeightOf_finite (C : Constants) (options : MinimapOptions)
    (vS vE vH : ℚ) (gaps : Bool) (lc : ℚ)
    (hpr : options.pixelRatio ≠ 0) (hlh : options.lineHeight ≠ 0) :
    ∃ q : ℚ, sliderHeightOf C options vS vE vH gaps lc = JSNum.finite q := by
  unfold sliderHeightOf
  dsimp only
  split
  · exact ⟨((⌊(vE - vS + 1) * ((getMinimapLineHeight C options.renderMinimap : ℤ) : ℚ) /
        options.pixelRatio⌋ : ℤ) : ℚ), by
      rw [JSNum.mul_finite, JSNum.div_finite _ _ hpr, JSNum.floor_finite]⟩
  · exact ⟨((⌊vH / options.lineHeight *
        ((getMinimapLineHeight C options.renderMinimap : ℤ) : ℚ) /
        options.pixelRatio⌋ : ℤ) : ℚ), by
      rw [JSNum.div_finite _ _ hlh, JSNum.mul_finite, JSNum.div_finite _ _ hpr,
        JSNum.floor_finite]⟩

/-- C7 (amended): for well-formed inputs — positive pixelRatio, lineHeight and
line pitch, at least one line, a strictly positive scrollable range, a scroll
offset within `[0, scrollHeight - viewportHeight]`, and a computed slider
height that fits the container (`sliderHeight ≤ minimapHeight`) — the slider
lies fully within the container: `0 ≤ sliderTop` and
`sliderTop + sliderHeight ≤ minimapHeight`. -/
theorem C7_slider_within_bounds (C : Constants) (options : MinimapOptions)
    (vS vE vH : ℚ) (gaps : Bool) (lc center st sh : ℚ)
    (hpr : 0 < options.pixelRatio)
    (hlh : 0 < options.lineHeight)
    (hmlh : 0 < getMinimapLineHeight C options.renderMinimap)
    (hlc : 1 ≤ lc)
    (hscroll : vH < sh)
    (hst0 : 0 ≤ st)
    (hst1 : st ≤ sh - vH)
    (hfit : JSNum.le (sliderHeightOf C options vS vE vH gaps lc)
        (JSNum.finite options.minimapHeight) = true) :
    ∃ t h : ℚ,
      (MinimapLayout.create C options vS vE vH gaps lc center st sh).sliderTop =
          JSNum.finite t ∧
        (MinimapLayout.create C options vS vE vH gaps lc center st sh).sliderHeight =
          JSNum.finite h ∧
        0 ≤ t ∧ t + h ≤ options.minimapHeight := by
  obtain ⟨shq, hsh⟩ := sliderHeightOf_finite C options vS vE vH gaps lc hpr.ne' hlh.ne'
  rw [hsh, JSNum.le_finite, decide_eq_true_eq] at hfit
  have hmlhq : (0 : ℚ) < ((getMinimapLineHeight C options.renderMinimap : ℤ) : ℚ) := by
    exact_mod_cast hmlh
  have hden : (0 : ℚ) < sh - vH := sub_pos.mpr hscroll
  have hmax : maxMinimapSliderTopOf C options vS vE vH gaps lc =
      JSNum.finite (min (options.minimapHeight - shq)
        ((lc - 1) * ((getMinimapLineHeight C options.renderMinimap : ℤ) : ℚ) /
          options.pixelRatio)) := by
    unfold maxMinimapSliderTopOf
    dsimp only
    rw [hsh, JSNum.sub_finite, JSNum.mul_finite, JSNum.div_finite _ _ hpr.ne',
      JSNum.jmin_finite]
  set M := min (options.minimapHeight - shq)
    ((lc - 1) * ((getMinimapLineHeight C options.renderMinimap : ℤ) : ℚ) /
      options.pixelRatio) with hM
  have hM0 : 0 ≤ M := by
    refine le_min (by linarith) ?_
    exact div_nonneg (mul_nonneg (by linarith) hmlhq.le) hpr.le
  have hMle : M ≤ options.minimapHeight - shq := min_le_left _ _
  have hratio : computedSliderRatioOf C options vS vE vH gaps lc sh =
      JSNum.finite (M / (sh - vH)) := by
    unfold computedSliderRatioOf
    rw [hmax, JSNum.sub_finite, JSNum.div_finite _ _ hden.ne']
  have hr0 : 0 ≤ M / (sh - vH) := div_nonneg hM0 hden.le
  refine ⟨st * (M / (sh - vH)), shq, ?_, ?_, mul_nonneg hst0 hr0, ?_⟩
  · rw [MinimapLayout.create_sliderTop]
    unfold sliderTopOf
    rw [hratio, JSNum.mul_finite]
  · rw [MinimapLayout.create_sliderHeight]
    exact hsh
  · have h1 : st * (M / (sh - vH)) ≤ (sh - vH) * (M / (sh - vH)) :=
      mul_le_mul_of_nonneg_right hst1 hr0
    have h2 : (sh - vH) * (M / (sh - vH)) = M := by
      rw [mul_comm, div_mul_cancel₀ _ hden.ne']
    linarith

theorem C7_slider_within_bounds_witness :
    ∃ t h : ℚ,
      (MinimapLayout.create exC exOptions 1 30 600 false 100 0 700 2000).sliderTop =
          JSNum.finite t ∧
        (MinimapLayout.create exC exOptions 1 30 600 false 100 0 700 2000).sliderHeight =
          JSNum.finite h ∧
        0 ≤ t ∧ t + h ≤ exOptions.minimapHeight :=
  C7_slider_within_bounds exC exOptions 1 30 600 false 100 0 700 2000
    (by norm_num [exOptions]) (by norm_num [exOptions]) (by decide) (by norm_num)
    (by norm_num) (by norm_num) (by norm_num)
    (by rw [ex_sliderHeight, show exOptions.minimapHeight = (100 : ℚ) from rfl,
          JSNum.le_finite]
        decide)

/-!
Lemmas about the record-building loop of `render` and the reuse loop.
-/

theorem renderLinesLoop_length (mlh : ℤ) (needed : List Bool) :
    ∀ (n i : ℕ) (dy : ℤ), (renderLinesLoop mlh needed n i dy).1.length = n := by
  intro n
  induction n with
  | zero => intro i dy; rfl
  | succ m ih =>
      intro i dy
      simp only [renderLinesLoop]
      simp [ih]

theorem renderLinesLoop_getD (mlh : ℤ) (needed : List Bool) :
    ∀ (n k i : ℕ) (dy : ℤ), k < n →
      (renderLinesLoop mlh needed n i dy).1.getD k MinimapLine.INVALID =
        ⟨dy + k * mlh⟩ := by
  intro n
  induction n with
  | zero =>
      intro k i dy hk
      exact absurd hk (Nat.not_lt_zero k)
  | succ m ih =>
      intro k i dy hk
      cases k with
      | zero =>
          simp [renderLinesLoop]
      | succ j =>
          simp only [renderLinesLoop]
          rw [List.getD_cons_succ]
          rw [ih j (i + 1) (dy + mlh) (by omega)]
          congr 1
          push_cast
          ring

theorem renderLinesLoop_draws (mlh : ℤ) (needed : List Bool) :
    ∀ (n i : ℕ) (dy : ℤ) (p : ℕ × ℤ), p ∈ (renderLinesLoop mlh needed n i dy).2 →
      ∃ k : ℕ, k < n ∧ p = (i + k, dy + k * mlh) := by
  intro n
  induction n with
  | zero =>
      intro i dy p hp
      simp [renderLinesLoop] at hp
  | succ m ih =>
      intro i dy p hp
      simp only [renderLinesLoop] at hp
      by_cases hb : needed.getD i false
      · rw [if_pos hb] at hp
        rcases List.mem_cons.mp hp with h | h
        · exact ⟨0, Nat.succ_pos m, by simp [h]⟩
        · obtain ⟨k, hk, hpk⟩ := ih (i + 1) (dy + mlh) p h
          refine ⟨k + 1, by omega, ?_⟩
          rw [hpk, Prod.mk.injEq]
          refine ⟨by omega, by push_cast; ring⟩
      · rw [if_neg hb] at hp
        obtain ⟨k, hk, hpk⟩ := ih (i + 1) (dy + mlh) p hp
        refine ⟨k + 1, by omega, ?_⟩
        rw [hpk, Prod.mk.injEq]
        refine ⟨by omega, by push_cast; ring⟩

theorem untouchedStep_dest_dy (W mlh : ℤ) (old : Buf) (sd : ℤ) (st : CopyState) :
    (untouchedStep W mlh old sd st).dest_dy = st.dest_dy + mlh := by
  unfold untouchedStep
  split
  · rfl
  · dsimp only
    split <;> rfl

theorem untouchedLoop_dest_dy (W mlh : ℤ) (old : Buf) (sdy : ℤ → ℤ) :
    ∀ (n : ℕ) (ln : ℤ) (st : CopyState),
      (untouchedLoop W mlh old sdy ln n st).dest_dy = st.dest_dy + n * mlh := by
  intro n
  induction n with
  | zero =>
      intro ln st
      simp [untouchedLoop]
  | succ m ih =>
      intro ln st
      simp only [untouchedLoop]
      rw [ih, untouchedStep_dest_dy]
      push_cast
      ring

/-- C10: after a completed `render`, the saved RenderData holds exactly
`endLineNumber - startLineNumber + 1` rendered-row records; the k-th record
carries the index-proportional offset `dy = k * minimapLineHeight`; for a
nonnegative pitch no record is the invalid sentinel `-1`; every rasterization
call issued by the loop draws at `lineIndex * minimapLineHeight`; and the
reuse loop advances its destination cursor identically, by one pitch per row,
so copied rows land at the same index-proportional offsets. -/
theorem C10_renderData_records (buffer : ImageData) (s e mlh : ℤ)
    (last : Option RenderData) (hmlh : 0 ≤ mlh) :
    ((Minimap.render buffer s e mlh last).1.lines.length = (e - s + 1).toNat) ∧
      (∀ k : ℕ, k < (e - s + 1).toNat →
        (Minimap.render buffer s e mlh last).1.lines.getD k MinimapLine.INVALID =
          ⟨(k : ℤ) * mlh⟩) ∧
      (∀ k : ℕ, k < (e - s + 1).toNat →
        (Minimap.render buffer s e mlh last).1.lines.getD k MinimapLine.INVALID ≠
          MinimapLine.INVALID) ∧
      (∀ p : ℕ × ℤ, p ∈ (Minimap.render buffer s e mlh last).2 →
        p.2 = (p.1 : ℤ) * mlh) ∧
      (∀ (W : ℤ) (old : Buf) (sdy : ℤ → ℤ) (n : ℕ) (ln : ℤ) (st : CopyState),
        (untouchedLoop W mlh old sdy ln n st).dest_dy = st.dest_dy + n * mlh) := by
  have hlines : (Minimap.render buffer s e mlh last).1.lines =
      (renderLinesLoop mlh
        (Minimap._renderUntouchedLines buffer s e mlh last).1 (e - s + 1).toNat 0 0).1 := rfl
  have hdraws : (Minimap.render buffer s e mlh last).2 =
      (renderLinesLoop mlh
        (Minimap._renderUntouchedLines buffer s e mlh last).1 (e - s + 1).toNat 0 0).2 := rfl
  refine ⟨?_, ?_, ?_, ?_, fun W old sdy n ln st => untouchedLoop_dest_dy W mlh old sdy n ln st⟩
  · rw [hlines, renderLinesLoop_length]
  · intro k hk
    rw [hlines, renderLinesLoop_getD _ _ _ _ _ _ hk, zero_add]
  · intro k hk
    rw [hlines, renderLinesLoop_getD _ _ _ _ _ _ hk, zero_add]
    intro hbad
    have : (k : ℤ) * mlh = -1 := congrArg MinimapLine.dy hbad
    have hge : (0 : ℤ) ≤ (k : ℤ) * mlh := mul_nonneg (Int.natCast_nonneg k) hmlh
    omega
  · intro p hp
    rw [hdraws] at hp
    obtain ⟨k, hk, hpk⟩ := renderLinesLoop_draws _ _ _ _ _ p hp
    rw [hpk]
    simp

theorem C10_renderData_records_witness :
    (Minimap.render ⟨1, fun _ => 0⟩ 1 2 2 Option.none).1.lines.getD 1 MinimapLine.INVALID =
      ⟨((1 : ℕ) : ℤ) * 2⟩ :=
  (C10_renderData_records ⟨1, fun _ => 0⟩ 1 2 2 Option.none (by decide)).2.1 1 (by decide)

/-- The reuse loop splits along its iteration count. -/
theorem untouchedLoop_append (W mlh : ℤ) (old : Buf) (sdy : ℤ → ℤ) :
    ∀ (m k : ℕ) (ln : ℤ) (st : CopyState),
      untouchedLoop W mlh old sdy ln (m + k) st =
        untouchedLoop W mlh old sdy (ln + (m : ℤ)) k
          (untouchedLoop W mlh old sdy ln m st) := by
  intro m
  induction m with
  | zero =>
      intro k ln st
      simp [untouchedLoop]
  | succ j ih =>
      intro k ln st
      rw [show j + 1 + k = (j + k) + 1 from by omega]
      simp only [untouchedLoop]
      rw [ih k (ln + 1) (untouchedStep W mlh old (sdy ln) st)]
      have harg : ln + 1 + (j : ℤ) = ln + ((j + 1 : ℕ) : ℤ) := by push_cast; ring
      rw [harg]

/-- Iterating the reuse loop over lines with no usable prior record appends a
`true` flag per line, advances the cursor, and changes nothing else. -/
theorem untouchedLoop_skip (W mlh : ℤ) (old : Buf) (sdy : ℤ → ℤ) :
    ∀ (n : ℕ) (ln : ℤ) (st : CopyState),
      (∀ i : ℕ, i < n → sdy (ln + i) = -1) →
      untouchedLoop W mlh old sdy ln n st =
        { st with
          needed := st.needed ++ List.replicate n true
          dest_dy := st.dest_dy + n * mlh } := by
  intro n
  induction n with
  | zero =>
      intro ln st h
      simp only [untouchedLoop]
      ext1 <;> dsimp only <;> simp
  | succ m ih =>
      intro ln st h
      have h0 : sdy ln = -1 := by
        have := h 0 (Nat.succ_pos m)
        simpa using this
      simp only [untouchedLoop]
      have hstep : untouchedStep W mlh old (sdy ln) st =
          { st with needed := st.needed ++ [true], dest_dy := st.dest_dy + mlh } := by
        unfold untouchedStep
        rw [if_pos h0]
      rw [hstep]
      rw [ih (ln + 1) _ (fun i hi => by
        have := h (i + 1) (by omega)
        rw [show ln + 1 + (i : ℤ) = ln + ((i + 1 : ℕ) : ℤ) from by push_cast; ring]
        exact this)]
      ext1 <;> dsimp only
      · simp [List.replicate_succ]
      · push_cast
        ring

/-- Iterating the reuse loop over a contiguous run of valid prior records that
extends the pending copy span: each line appends a `false` flag and grows the
span by one row pitch; no flush happens and the target bytes are untouched. -/
theorem untouchedLoop_run (W mlh : ℤ) (old : Buf) (sdy : ℤ → ℤ) :
    ∀ (n : ℕ) (ln s0 : ℤ) (st : CopyState),
      (∀ i : ℕ, i < n → sdy (ln + i) = s0 + i * mlh) →
      (∀ i : ℕ, i < n → sdy (ln + i) ≠ -1) →
      st.copySourceEnd = s0 * W * 4 →
      st.copyDestEnd = st.dest_dy * W * 4 →
      untouchedLoop W mlh old sdy ln n st =
        { st with
          needed := st.needed ++ List.replicate n false
          copySourceEnd := (s0 + n * mlh) * W * 4
          copyDestEnd := (st.dest_dy + n * mlh) * W * 4
          dest_dy := st.dest_dy + n * mlh } := by
  intro n
  induction n with
  | zero =>
      intro ln s0 st hc hnz hse hde
      simp only [untouchedLoop]
      ext1 <;> dsimp only
      · simp
      · rw [hse]
        push_cast
        ring
      · rw [hde]
        push_cast
        ring
      · push_cast
        ring
  | succ m ih =>
      intro ln s0 st hc hnz hse hde
      have h0 : sdy ln = s0 := by
        have := hc 0 (Nat.succ_pos m)
        simpa using this
      have h0nz : ¬ sdy ln = -1 := by
        have := hnz 0 (Nat.succ_pos m)
        simpa using this
      simp only [untouchedLoop]
      have hstep : untouchedStep W mlh old (sdy ln) st =
          { st with
            copySourceEnd := (sdy ln + mlh) * W * 4
            copyDestEnd := (st.dest_dy + mlh) * W * 4
            needed := st.needed ++ [false]
            dest_dy := st.dest_dy + mlh } := by
        unfold untouchedStep
        rw [if_neg h0nz]
        dsimp only
        rw [if_pos ⟨by rw [hse, h0], by rw [hde]⟩]
      rw [hstep]
      rw [ih (ln + 1) (s0 + mlh) _
        (fun i hi => by
          have := hc (i + 1) (by omega)
          rw [show ln + 1 + (i : ℤ) = ln + ((i + 1 : ℕ) : ℤ) from by push_cast; ring]
          rw [this]
          push_cast
          ring)
        (fun i hi => by
          have := hnz (i + 1) (by omega)
          rw [show ln + 1 + (i : ℤ) = ln + ((i + 1 : ℕ) : ℤ) from by push_cast; ring]
          exact this)
        (by dsimp only; rw [h0])
        (by dsimp only)]
      ext1 <;> dsimp only
      · simp [List.replicate_succ]
      · push_cast
        ring
      · push_cast
        ring
      · push_cast
        ring

/-- After `render` on `[s1, e1]`, a line inside that range has the recorded
offset `(ln - s1) * mlh`. -/
theorem render_sourceDy_in_range (buffer : ImageData) (s1 e1 mlh : ℤ)
    (last0 : Option RenderData) (ln : ℤ) (ha : s1 ≤ ln) (hb : ln ≤ e1) :
    sourceDyOf (Minimap.render buffer s1 e1 mlh last0).1.rendLineNumberStart
      (Minimap.render buffer s1 e1 mlh last0).1.lines ln = (ln - s1) * mlh := by
  have hlines : (Minimap.render buffer s1 e1 mlh last0).1.lines =
      (renderLinesLoop mlh (Minimap._renderUntouchedLines buffer s1 e1 mlh last0).1
        (e1 - s1 + 1).toNat 0 0).1 := rfl
  have hstart : (Minimap.render buffer s1 e1 mlh last0).1.rendLineNumberStart = s1 := rfl
  have hlen : (Minimap.render buffer s1 e1 mlh last0).1.lines.length =
      (e1 - s1 + 1).toNat := by
    rw [hlines, renderLinesLoop_length]
  unfold sourceDyOf
  rw [hstart]
  dsimp only
  rw [if_pos ⟨by omega, by rw [hlen]; omega⟩]
  have hk : (ln - s1).toNat < (e1 - s1 + 1).toNat := by omega
  rw [hlines, renderLinesLoop_getD _ _ _ _ _ _ hk, zero_add]
  dsimp only
  rw [Int.toNat_of_nonneg (by omega)]

/-- After `render` on `[s1, e1]`, a line outside that range has no usable
record: `sourceDyOf` answers the sentinel `-1`. -/
theorem render_sourceDy_out_of_range (buffer : ImageData) (s1 e1 mlh : ℤ)
    (last0 : Option RenderData) (ln : ℤ) (h : ln < s1 ∨ e1 < ln) :
    sourceDyOf (Minimap.render buffer s1 e1 mlh last0).1.rendLineNumberStart
      (Minimap.render buffer s1 e1 mlh last0).1.lines ln = -1 := by
  have hlines : (Minimap.render buffer s1 e1 mlh last0).1.lines =
      (renderLinesLoop mlh (Minimap._renderUntouchedLines buffer s1 e1 mlh last0).1
        (e1 - s1 + 1).toNat 0 0).1 := rfl
  have hstart : (Minimap.render buffer s1 e1 mlh last0).1.rendLineNumberStart = s1 := rfl
  have hlen : (Minimap.render buffer s1 e1 mlh last0).1.lines.length =
      (e1 - s1 + 1).toNat := by
    rw [hlines, renderLinesLoop_length]
  unfold sourceDyOf
  rw [hstart]
  dsimp only
  rw [if_neg (by
    rintro ⟨hc1, hc2⟩
    rw [hlen] at hc2
    omega)]

/-- Unfolding of `_renderUntouchedLines` in the prior-state case. -/
theorem renderUntouchedLines_some_eq (t : ImageData) (s e m : ℤ) (rd : RenderData) :
    Minimap._renderUntouchedLines t s e m (some rd) =
      ((untouchedLoop t.width m rd.imageData.data
          (sourceDyOf rd.rendLineNumberStart rd.lines) s (e - s + 1).toNat
          ⟨[], -1, -1, -1, -1, 0, t.data⟩).needed,
        if (untouchedLoop t.width m rd.imageData.data
            (sourceDyOf rd.rendLineNumberStart rd.lines) s (e - s + 1).toNat
            ⟨[], -1, -1, -1, -1, 0, t.data⟩).copySourceStart ≠ -1 then
          copyRange rd.imageData.data
            (untouchedLoop t.width m rd.imageData.data
              (sourceDyOf rd.rendLineNumberStart rd.lines) s (e - s + 1).toNat
              ⟨[], -1, -1, -1, -1, 0, t.data⟩).copySourceStart
            (untouchedLoop t.width m rd.imageData.data
              (sourceDyOf rd.rendLineNumberStart rd.lines) s (e - s + 1).toNat
              ⟨[], -1, -1, -1, -1, 0, t.data⟩).copySourceEnd
            (untouchedLoop t.width m rd.imageData.data
              (sourceDyOf rd.rendLineNumberStart rd.lines) s (e - s + 1).toNat
              ⟨[], -1, -1, -1, -1, 0, t.data⟩).target
            (untouchedLoop t.width m rd.imageData.data
              (sourceDyOf rd.rendLineNumberStart rd.lines) s (e - s + 1).toNat
              ⟨[], -1, -1, -1, -1, 0, t.data⟩).copyDestStart
        else
          (untouchedLoop t.width m rd.imageData.data
            (sourceDyOf rd.rendLineNumberStart rd.lines) s (e - s + 1).toNat
            ⟨[], -1, -1, -1, -1, 0, t.data⟩).target) := rfl

/-- C2: take two consecutive frames over an unchanged document where only the
scroll offset changed — frame 1 is a completed `render` of `[start1, end1]`
whose saved state is passed intact to frame 2's `_renderUntouchedLines` over
`[start2, end2]`.  Every line number `L` lying in both visible ranges has the
valid (non-sentinel) record `(L - start1) * mlh`, is classified as not
needing rasterization, and after the merged contiguous copies its
`mlh * width * 4` bytes in the new buffer equal the old buffer's bytes at its
recorded dy. -/
theorem C2_reuse_correctness (buffer1 target2 : ImageData) (last0 : Option RenderData)
    (start1 end1 start2 end2 L mlh : ℤ)
    (hmlh : 1 ≤ mlh) (hW : 0 ≤ target2.width)
    (h1s : start1 ≤ L) (h1e : L ≤ end1) (h2s : start2 ≤ L) (h2e : L ≤ end2) :
    sourceDyOf (Minimap.render buffer1 start1 end1 mlh last0).1.rendLineNumberStart
        (Minimap.render buffer1 start1 end1 mlh last0).1.lines L = (L - start1) * mlh ∧
      sourceDyOf (Minimap.render buffer1 start1 end1 mlh last0).1.rendLineNumberStart
        (Minimap.render buffer1 start1 end1 mlh last0).1.lines L ≠ -1 ∧
      (Minimap._renderUntouchedLines target2 start2 end2 mlh
          (some (Minimap.render buffer1 start1 end1 mlh last0).1)).1.getD
        (L - start2).toNat true = false ∧
      (∀ off : ℤ, 0 ≤ off → off < mlh * target2.width * 4 →
        (Minimap._renderUntouchedLines target2 start2 end2 mlh
            (some (Minimap.render buffer1 start1 end1 mlh last0).1)).2
          ((L - start2) * mlh * target2.width * 4 + off) =
        (Minimap.render buffer1 start1 end1 mlh last0).1.imageData.data
          ((L - start1) * mlh * target2.width * 4 + off)) := by
  set rd1 : RenderData := (Minimap.render buffer1 start1 end1 mlh last0).1 with hrd1d
  set W : ℤ := target2.width with hWd
  set old : Buf := rd1.imageData.data with holdd
  set sdy : ℤ → ℤ := sourceDyOf rd1.rendLineNumberStart rd1.lines with hsdydd
  have hin : ∀ ln : ℤ, start1 ≤ ln → ln ≤ end1 → sdy ln = (ln - start1) * mlh := by
    intro ln ha hb
    rw [hsdydd, hrd1d]
    exact render_sourceDy_in_range buffer1 start1 end1 mlh last0 ln ha hb
  have hout : ∀ ln : ℤ, ln < start1 ∨ end1 < ln → sdy ln = -1 := by
    intro ln h
    rw [hsdydd, hrd1d]
    exact render_sourceDy_out_of_range buffer1 start1 end1 mlh last0 ln h
  set ovS : ℤ := max start1 start2 with hovSd
  set ovE : ℤ := min end1 end2 with hovEd
  have h1ovS : start1 ≤ ovS := le_max_left _ _
  have h2ovS : start2 ≤ ovS := le_max_right _ _
  have hovSL : ovS ≤ L := max_le h1s h2s
  have hovLE : L ≤ ovE := le_min h1e h2e
  have hovE1 : ovE ≤ end1 := min_le_left _ _
  have hovE2 : ovE ≤ end2 := min_le_right _ _
  set a : ℕ := (ovS - start2).toNat with had
  set c' : ℕ := (ovE - ovS).toNat with hcd
  set b : ℕ := (end2 - ovE).toNat with hbd
  have haz : (a : ℤ) = ovS - start2 := by omega
  have hcz : (c' : ℤ) = ovE - ovS := by omega
  have hbz : (b : ℤ) = end2 - ovE := by omega
  have hn2 : (end2 - start2 + 1).toNat = a + ((c' + b) + 1) := by omega
  have hA_sdy : ∀ i : ℕ, i < a → sdy (start2 + (i : ℤ)) = -1 := by
    intro i hi
    apply hout
    left
    rcases max_cases start1 start2 with ⟨hm, hm2⟩ | ⟨hm, hm2⟩ <;> omega
  have hB_sdy : ∀ i : ℕ, i ≤ c' → sdy (ovS + (i : ℤ)) = (ovS + (i : ℤ) - start1) * mlh := by
    intro i hi
    apply hin <;> omega
  have hC_sdy : ∀ i : ℕ, i < b → sdy (ovE + 1 + (i : ℤ)) = -1 := by
    intro i hi
    apply hout
    right
    rcases min_cases end1 end2 with ⟨hm, hm2⟩ | ⟨hm, hm2⟩ <;> omega
  have hA : untouchedLoop W mlh old sdy start2 a ⟨[], -1, -1, -1, -1, 0, target2.data⟩ =
      ⟨List.replicate a true, -1, -1, -1, -1, (a : ℤ) * mlh, target2.data⟩ := by
    rw [untouchedLoop_skip W mlh old sdy a start2 _ hA_sdy]
    ext1 <;> simp
  have hsa : start2 + (a : ℤ) = ovS := by omega
  have hS0 : sdy ovS = (ovS - start1) * mlh := by
    have := hB_sdy 0 (Nat.zero_le c')
    simpa using this
  have hS0nn : 0 ≤ (ovS - start1) * mlh := mul_nonneg (by omega) (by omega)
  have hDann : 0 ≤ (a : ℤ) * mlh * W * 4 :=
    mul_nonneg (mul_nonneg (mul_nonneg (Int.natCast_nonneg a) (by omega)) hW) (by norm_num)
  have hstep1 : untouchedStep W mlh old (sdy ovS)
      ⟨List.replicate a true, -1, -1, -1, -1, (a : ℤ) * mlh, target2.data⟩ =
      ⟨List.replicate a true ++ [false],
        (ovS - start1) * mlh * W * 4,
        ((ovS - start1) * mlh + mlh) * W * 4,
        (a : ℤ) * mlh * W * 4,
        ((a : ℤ) * mlh + mlh) * W * 4,
        (a : ℤ) * mlh + mlh,
        target2.data⟩ := by
    unfold untouchedStep
    rw [hS0]
    rw [if_neg (fun hcontr => by rw [hcontr] at hS0nn; norm_num at hS0nn)]
    dsimp only
    rw [if_neg (fun hcontr => by
      have hc2 := hcontr.2
      rw [← hc2] at hDann
      norm_num at hDann)]
    rw [if_neg (by simp)]
  have hB : untouchedLoop W mlh old sdy (ovS + 1) c'
      ⟨List.replicate a true ++ [false],
        (ovS - start1) * mlh * W * 4,
        ((ovS - start1) * mlh + mlh) * W * 4,
        (a : ℤ) * mlh * W * 4,
        ((a : ℤ) * mlh + mlh) * W * 4,
        (a : ℤ) * mlh + mlh,
        target2.data⟩ =
      ⟨(List.replicate a true ++ [false]) ++ List.replicate c' false,
        (ovS - start1) * mlh * W * 4,
        ((ovS - start1) * mlh + mlh + (c' : ℤ) * mlh) * W * 4,
        (a : ℤ) * mlh * W * 4,
        ((a : ℤ) * mlh + mlh + (c' : ℤ) * mlh) * W * 4,
        (a : ℤ) * mlh + mlh + (c' : ℤ) * mlh,
        target2.data⟩ := by
    rw [untouchedLoop_run W mlh old sdy c' (ovS + 1) ((ovS - start1) * mlh + mlh) _
      (fun i hi => by
        have hv := hB_sdy (i + 1) (by omega)
        rw [show ovS + 1 + (i : ℤ) = ovS + ((i + 1 : ℕ) : ℤ) from by push_cast; ring]
        rw [hv]
        push_cast
        ring)
      (fun i hi => by
        rw [show ovS + 1 + (i : ℤ) = ovS + ((i + 1 : ℕ) : ℤ) from by push_cast; ring]
        rw [hB_sdy (i + 1) (by omega)]
        have hnn : 0 ≤ (ovS + ((i + 1 : ℕ) : ℤ) - start1) * mlh :=
          mul_nonneg (by push_cast; omega) (by omega)
        intro hcontr
        rw [hcontr] at hnn
        norm_num at hnn)
      rfl rfl]
  have hlnC : ovS + 1 + (c' : ℤ) = ovE + 1 := by omega
  have hC : untouchedLoop W mlh old sdy (ovS + 1 + (c' : ℤ)) b
      ⟨(List.replicate a true ++ [false]) ++ List.replicate c' false,
        (ovS - start1) * mlh * W * 4,
        ((ovS - start1) * mlh + mlh + (c' : ℤ) * mlh) * W * 4,
        (a : ℤ) * mlh * W * 4,
        ((a : ℤ) * mlh + mlh + (c' : ℤ) * mlh) * W * 4,
        (a : ℤ) * mlh + mlh + (c' : ℤ) * mlh,
        target2.data⟩ =
      ⟨((List.replicate a true ++ [false]) ++ List.replicate c' false) ++
          List.replicate b true,
        (ovS - start1) * mlh * W * 4,
        ((ovS - start1) * mlh + mlh + (c' : ℤ) * mlh) * W * 4,
        (a : ℤ) * mlh * W * 4,
        ((a : ℤ) * mlh + mlh + (c' : ℤ) * mlh) * W * 4,
        ((a : ℤ) * mlh + mlh + (c' : ℤ) * mlh) + (b : ℤ) * mlh,
        target2.data⟩ := by
    rw [untouchedLoop_skip W mlh old sdy b (ovS + 1 + (c' : ℤ)) _
      (fun i hi => by rw [hlnC]; exact hC_sdy i hi)]
  have hloop : untouchedLoop W mlh old sdy start2 (end2 - start2 + 1).toNat
      ⟨[], -1, -1, -1, -1, 0, target2.data⟩ =
      ⟨((List.replicate a true ++ [false]) ++ List.replicate c' false) ++
          List.replicate b true,
        (ovS - start1) * mlh * W * 4,
        ((ovS - start1) * mlh + mlh + (c' : ℤ) * mlh) * W * 4,
        (a : ℤ) * mlh * W * 4,
        ((a : ℤ) * mlh + mlh + (c' : ℤ) * mlh) * W * 4,
        ((a : ℤ) * mlh + mlh + (c' : ℤ) * mlh) + (b : ℤ) * mlh,
        target2.data⟩ := by
    rw [hn2]
    rw [untouchedLoop_append W mlh old sdy a ((c' + b) + 1) start2 _]
    rw [hA, hsa]
    simp only [untouchedLoop]
    rw [hstep1]
    rw [untouchedLoop_append W mlh old sdy c' b (ovS + 1) _]
    rw [hB, hC]
  have hSann : 0 ≤ (ovS - start1) * mlh * W * 4 :=
    mul_nonneg (mul_nonneg hS0nn hW) (by norm_num)
  have hneed : (Minimap._renderUntouchedLines target2 start2 end2 mlh (some rd1)).1 =
      ((List.replicate a true ++ [false]) ++ List.replicate c' false) ++
        List.replicate b true := by
    rw [renderUntouchedLines_some_eq]
    dsimp only
    rw [← hWd, ← holdd, ← hsdydd, hloop]
  have hbuf : (Minimap._renderUntouchedLines target2 start2 end2 mlh (some rd1)).2 =
      copyRange old ((ovS - start1) * mlh * W * 4)
        (((ovS - start1) * mlh + mlh + (c' : ℤ) * mlh) * W * 4) target2.data
        ((a : ℤ) * mlh * W * 4) := by
    rw [renderUntouchedLines_some_eq]
    dsimp only
    rw [← hWd, ← holdd, ← hsdydd, hloop]
    dsimp only
    rw [if_pos (fun hcontr => by rw [hcontr] at hSann; norm_num at hSann)]
  refine ⟨hin L h1s h1e, ?_, ?_, ?_⟩
  · rw [hin L h1s h1e]
    have hnn : 0 ≤ (L - start1) * mlh := mul_nonneg (by omega) (by omega)
    intro hcontr
    rw [hcontr] at hnn
    norm_num at hnn
  · rw [hneed]
    have hlist : (List.replicate a true ++ [false]) ++ List.replicate c' false =
        List.replicate a true ++ List.replicate (c' + 1) false := by
      rw [List.append_assoc, List.singleton_append, ← List.replicate_succ]
    rw [hlist]
    rw [List.getD_append _ _ _ _ (by
      simp only [List.length_append, List.length_replicate]
      omega)]
    rw [List.getD_append_right _ _ _ _ (by
      simp only [List.length_replicate]
      omega)]
    rw [List.getD_eq_getElem _ _ (by
      simp only [List.length_replicate]
      omega)]
    rw [List.getElem_replicate]
  · intro off hoff0 hoff1
    rw [hbuf]
    unfold copyRange
    have e1 : (L - start2) * mlh * W * 4 + off - (a : ℤ) * mlh * W * 4 =
        (L - ovS) * (mlh * W * 4) + off := by
      rw [haz]
      ring
    have hKnn : 0 ≤ mlh * W * 4 :=
      mul_nonneg (mul_nonneg (by omega) hW) (by norm_num)
    have hlo : 0 ≤ (L - ovS) * (mlh * W * 4) :=
      mul_nonneg (by omega) hKnn
    have hup : (L - ovS) * (mlh * W * 4) ≤ (c' : ℤ) * (mlh * W * 4) :=
      mul_le_mul_of_nonneg_right (by omega) hKnn
    have e2 : ((ovS - start1) * mlh + mlh + (c' : ℤ) * mlh) * W * 4 -
        (ovS - start1) * mlh * W * 4 = ((c' : ℤ) + 1) * (mlh * W * 4) := by
      ring
    have hoff1' : off < mlh * W * 4 := hoff1
    rw [if_pos ⟨by linarith [e1], by
      rw [e2]
      have : ((c' : ℤ) + 1) * (mlh * W * 4) = (c' : ℤ) * (mlh * W * 4) + mlh * W * 4 := by
        ring
      linarith [e1]⟩]
    congr 1
    rw [e1]
    ring

theorem C2_reuse_correctness_witness :
    ((Minimap._renderUntouchedLines ⟨1, fun _ => 0⟩ 2 3 1
        (some (Minimap.render ⟨1, fun i => i.toNat⟩ 1 2 1 Option.none).1)).1.getD
      ((2 : ℤ) - 2).toNat true = false) ∧
      (Minimap._renderUntouchedLines ⟨1, fun _ => 0⟩ 2 3 1
          (some (Minimap.render ⟨1, fun i => i.toNat⟩ 1 2 1 Option.none).1)).2 0 =
        (Minimap.render ⟨1, fun i => i.toNat⟩ 1 2 1 Option.none).1.imageData.data 4 := by
  have h := C2_reuse_correctness ⟨1, fun i => i.toNat⟩ ⟨1, fun _ => 0⟩ Option.none
    1 2 2 3 2 1 (by decide) (by decide) (by decide) (by decide) (by decide) (by decide)
  exact ⟨h.2.2.1, h.2.2.2 0 (by decide) (by decide)⟩
